import Mathlib

/-!
Verification development for the liquicalc repository.  The position-ladder
simulator, the dual-side ladder builder and the backtest state machine are
embedded shallowly from the TypeScript source.  Numbers are modelled as
rationals; the JavaScript value NaN (the result of parsing a malformed
numeric string, or of arithmetic on undefined) is modelled as `none` in
`Option ℚ`, and every comparison against it is false, exactly as in
JavaScript.  Division by zero yields 0 on ℚ where JavaScript floating point
yields an infinity or NaN; no theorem below depends on a value produced
downstream of such a division.  A JavaScript runtime TypeError raised by
reading a property of `undefined` after indexing past the end of an array is
modelled as `Except.error`, since it rejects the enclosing promise and aborts
the run.
-/

namespace Liquicalc

/-- Runtime failures of the embedded code: the throw when no risk-bracket
table exists for the trading pair, and the TypeError raised by reading a
field of an out-of-range array element. -/
inductive RunError
  | noBracketInfo
  | undefinedAccess
  deriving DecidableEq, Repr

instance {ε α : Type} [DecidableEq ε] [DecidableEq α] : DecidableEq (Except ε α) := fun a b =>
  match a, b with
  | Except.error x, Except.error y =>
    if h : x = y then isTrue (congrArg Except.error h)
    else isFalse fun hh => h (Except.error.inj hh)
  | Except.ok x, Except.ok y =>
    if h : x = y then isTrue (congrArg Except.ok h)
    else isFalse fun hh => h (Except.ok.inj hh)
  | Except.error _, Except.ok _ => isFalse fun hh => Except.noConfusion hh
  | Except.ok _, Except.error _ => isFalse fun hh => Except.noConfusion hh

/-- Embeds `roundDown` of libnumber: truncate toward minus infinity at `f`
decimal digits.  (The source special-cases numbers whose decimal string has
no dot; those are integers, on which floor at `f` digits is the identity, so
the semantics agree on ℚ.) -/
def roundDown (n : ℚ) (f : ℕ) : ℚ := (⌊n * 10 ^ f⌋ : ℚ) / 10 ^ f

/-- Embeds `roundUp` of libnumber: round toward plus infinity at `f` decimal
digits. -/
def roundUp (n : ℚ) (f : ℕ) : ℚ := (⌈n * 10 ^ f⌉ : ℚ) / 10 ^ f

/-- Embeds `addPercentage` of libnumber. -/
def addPercentage (n p : ℚ) : ℚ := n + n * p / 100

/-- Embeds `subtractPercentage` of libnumber. -/
def subtractPercentage (n p : ℚ) : ℚ := n - n * p / 100

/-- JavaScript `<=` on possibly-NaN numbers: false whenever a side is NaN. -/
def jsLe : Option ℚ → Option ℚ → Bool
  | some a, some b => decide (a ≤ b)
  | _, _ => false

/-- JavaScript `>=` on possibly-NaN numbers: false whenever a side is NaN. -/
def jsGe : Option ℚ → Option ℚ → Bool
  | some a, some b => decide (b ≤ a)
  | _, _ => false

/-- One maintenance-margin tier, from libliqui. -/
structure RiskBracket where
  bracketSeq : ℕ
  bracketNotionalFloor : ℚ
  bracketNotionalCap : ℚ
  bracketMaintenanceMarginRate : ℚ
  cumFastMaintenanceAmount : ℚ
  minOpenPosLeverage : ℚ
  maxOpenPosLeverage : ℚ
  deriving DecidableEq, Repr

/-- The per-symbol risk-bracket table, from libliqui. -/
structure SymbolRiskBracketInfo where
  symbol : String
  updateTime : ℕ
  notionalLimit : ℚ
  riskBrackets : List RiskBracket
  deriving DecidableEq, Repr

/-- Trading direction, from libliqui.  (The source coerces any other value to
LONG before destructuring; with an inductive type that case is
unrepresentable.) -/
inductive TradingMode
  | LONG
  | SHORT
  deriving DecidableEq, Repr

/-- The simulator configuration, from libliqui. -/
structure LiquidationPriceConfig where
  tradingPair : String
  mode : TradingMode
  leverage : ℚ
  priceDeviationPercent : ℚ
  priceDeviationMultiplier : ℚ
  orderSizeMultiplier : ℚ
  initialEntryPrice : ℚ
  initialMargin : ℚ
  deriving DecidableEq, Repr

/-- One rung of the simulated ladder, from libliqui. -/
structure PositionSnapshot where
  entryPrice : ℚ
  orderSizeQuote : ℚ
  orderSizeBase : ℚ
  avgEntryPrice : ℚ
  liquidationPrice : ℚ
  totalInvesment : ℚ
  divergence : ℚ
  difference : ℚ
  deriving DecidableEq, Repr

instance : Inhabited PositionSnapshot := ⟨⟨0, 0, 0, 0, 0, 0, 0, 0⟩⟩

/-- The mutable variables of the `calculateLiquidationPrices` loop. -/
structure SimVars where
  marketPrice : ℚ
  marginToAdd : ℚ
  assetSizeToAdd : ℚ
  margin : ℚ
  positionAssetSize : ℚ
  averageEntryPrice : ℚ
  totalActualInvesment : ℚ
  totalLeveragedInvestment : ℚ
  liquidationPrice : ℚ
  totalDeviation : ℚ
  deriving DecidableEq, Repr

/-- Initial values of the loop variables (`liquidationPrice` starts at -1). -/
def initialSimVars : SimVars :=
  { marketPrice := 0, marginToAdd := 0, assetSizeToAdd := 0, margin := 0,
    positionAssetSize := 0, averageEntryPrice := 0, totalActualInvesment := 0,
    totalLeveragedInvestment := 0, liquidationPrice := -1, totalDeviation := 0 }

/-- The deviation percent applied at loop index `i ≥ 1`, the source
expression `priceDeviationPercent * (priceDeviationMultiplier !== 1 ?
Math.pow(priceDeviationMultiplier, i - 1) : 1)`. -/
def deviationPercentThisRound (cfg : LiquidationPriceConfig) (i : ℕ) : ℚ :=
  cfg.priceDeviationPercent *
    (if cfg.priceDeviationMultiplier ≠ 1 then cfg.priceDeviationMultiplier ^ (i - 1) else 1)

/-- The variable updates performed at the top of loop iteration `i` of
`calculateLiquidationPrices` (the `if (i === 0) ... else ...` block). -/
def simUpdate (cfg : LiquidationPriceConfig) (i : ℕ) (v : SimVars) : SimVars :=
  if i = 0 then
    { v with
      marketPrice := cfg.initialEntryPrice
      marginToAdd := cfg.initialMargin
      margin := cfg.initialMargin
      totalActualInvesment := cfg.initialMargin
      totalLeveragedInvestment := cfg.leverage * cfg.initialMargin
      assetSizeToAdd := cfg.leverage * cfg.initialMargin / cfg.initialEntryPrice
      positionAssetSize := cfg.leverage * cfg.initialMargin / cfg.initialEntryPrice
      averageEntryPrice := cfg.initialEntryPrice }
  else
    let previousMarketPrice := v.marketPrice
    let totalDeviation := v.totalDeviation + deviationPercentThisRound cfg i
    let marketPrice :=
      match cfg.mode with
      | TradingMode.LONG => subtractPercentage cfg.initialEntryPrice totalDeviation
      | TradingMode.SHORT => addPercentage cfg.initialEntryPrice totalDeviation
    let loss :=
      match cfg.mode with
      | TradingMode.LONG => (previousMarketPrice - marketPrice) * v.positionAssetSize
      | TradingMode.SHORT => (marketPrice - previousMarketPrice) * v.positionAssetSize
    let marginToAdd := v.marginToAdd * cfg.orderSizeMultiplier
    let assetSizeToAdd := cfg.leverage * marginToAdd / marketPrice
    let positionAssetSize := v.positionAssetSize + assetSizeToAdd
    { marketPrice := marketPrice
      marginToAdd := marginToAdd
      assetSizeToAdd := assetSizeToAdd
      margin := v.margin - loss + marginToAdd
      positionAssetSize := positionAssetSize
      averageEntryPrice := (v.totalLeveragedInvestment + cfg.leverage * marginToAdd) / positionAssetSize
      totalActualInvesment := v.totalActualInvesment + marginToAdd
      totalLeveragedInvestment := v.totalLeveragedInvestment + cfg.leverage * marginToAdd
      liquidationPrice := v.liquidationPrice
      totalDeviation := totalDeviation }

/-- The `riskBrackets.find(...)` call of the source: the first tier whose
half-open notional interval contains the position notional value. -/
def findRiskBracket (brs : List RiskBracket) (notional : ℚ) : Option RiskBracket :=
  brs.find? fun b =>
    decide (b.bracketNotionalFloor ≤ notional) && decide (notional < b.bracketNotionalCap)

/-- The `for (let i = 0; i < 50; i += 1)` loop body of
`calculateLiquidationPrices`, as a fuelled recursion: update the variables,
stop on a non-positive price, on a crossed previous liquidation price or on a
failed bracket lookup, otherwise append the rung snapshot and continue with
the freshly computed liquidation price. -/
def calcLoop (cfg : LiquidationPriceConfig) (brs : List RiskBracket) :
    ℕ → ℕ → SimVars → List PositionSnapshot
  | 0, _, _ => []
  | fuel + 1, i, v =>
    let v1 := simUpdate cfg i v
    if v1.marketPrice ≤ 0 then []
    else if decide (v1.liquidationPrice > 0) &&
        (match cfg.mode with
         | TradingMode.LONG => decide (v1.marketPrice ≤ v1.liquidationPrice)
         | TradingMode.SHORT => decide (v1.marketPrice ≥ v1.liquidationPrice)) then []
    else
      let positionNotionalValue := v1.marketPrice * v1.positionAssetSize
      match findRiskBracket brs positionNotionalValue with
      | none => []
      | some riskBracket =>
        let maintenanceMargin :=
          positionNotionalValue * riskBracket.bracketMaintenanceMarginRate -
            riskBracket.cumFastMaintenanceAmount
        let liquidationPrice :=
          match cfg.mode with
          | TradingMode.LONG =>
              v1.averageEntryPrice - (v1.margin - maintenanceMargin) / v1.positionAssetSize
          | TradingMode.SHORT =>
              v1.averageEntryPrice + (v1.margin - maintenanceMargin) / v1.positionAssetSize
        { entryPrice := v1.marketPrice
          orderSizeQuote := v1.marginToAdd
          orderSizeBase := v1.assetSizeToAdd
          avgEntryPrice := v1.averageEntryPrice
          liquidationPrice := liquidationPrice
          totalInvesment := v1.totalActualInvesment
          divergence := |v1.marketPrice - v1.averageEntryPrice| / v1.marketPrice * 100
          difference := |cfg.initialEntryPrice - v1.marketPrice| / cfg.initialEntryPrice * 100 }
          :: calcLoop cfg brs fuel (i + 1) { v1 with liquidationPrice := liquidationPrice }

/-- Embeds `calculateLiquidationPrices` of libliqui.  The maintenance-margin
file contents are passed explicitly; a missing entry for the trading pair is
the only throw of the function (inside the loop a failed bracket lookup
merely halts rung generation). -/
def calculateLiquidationPrices (cfg : LiquidationPriceConfig)
    (fileData : List SymbolRiskBracketInfo) : Except RunError (List PositionSnapshot) :=
  match fileData.find? (fun info => decide (info.symbol = cfg.tradingPair)) with
  | none => Except.error RunError.noBracketInfo
  | some info => Except.ok (calcLoop cfg info.riskBrackets 50 0 initialSimVars)

/-- The risk bracket of the concrete scenarios: floor 0, cap 1e9, rate 0.005,
maintenance amount 0. -/
def mainBracket : RiskBracket :=
  { bracketSeq := 1, bracketNotionalFloor := 0, bracketNotionalCap := 10 ^ 9,
    bracketMaintenanceMarginRate := 1 / 200, cumFastMaintenanceAmount := 0,
    minOpenPosLeverage := 1, maxOpenPosLeverage := 125 }

/-- A maintenance-margin file with the single bracket above for symbol X. -/
def sampleFileData : List SymbolRiskBracketInfo :=
  [{ symbol := "X", updateTime := 0, notionalLimit := 10 ^ 9,
     riskBrackets := [mainBracket] }]

/-- The concrete configuration of the C8 scenario. -/
def cfgC8 : LiquidationPriceConfig :=
  { tradingPair := "X", mode := TradingMode.LONG, leverage := 2,
    priceDeviationPercent := 5, priceDeviationMultiplier := 1,
    orderSizeMultiplier := 2, initialEntryPrice := 70000, initialMargin := 100 }


/-! Closed forms for the rung entry prices, read off the loop: the loop adds
`deviationPercentThisRound` to a running total and applies the total to the
initial entry price. -/

/-- Cumulative deviation percent after `k` rungs beyond the seed rung. -/
def totalDeviationUpTo (cfg : LiquidationPriceConfig) : ℕ → ℚ
  | 0 => 0
  | k + 1 => totalDeviationUpTo cfg k + deviationPercentThisRound cfg (k + 1)

/-- The entry price of rung `k`: the initial entry price moved adversely by
the cumulative deviation percent. -/
def rungPrice (cfg : LiquidationPriceConfig) (k : ℕ) : ℚ :=
  match cfg.mode with
  | TradingMode.LONG => subtractPercentage cfg.initialEntryPrice (totalDeviationUpTo cfg k)
  | TradingMode.SHORT => addPercentage cfg.initialEntryPrice (totalDeviationUpTo cfg k)

/-- A valid ladder configuration: strictly positive leverage, deviation step,
deviation multiplier, order-size multiplier, initial entry price and initial
margin. -/
def ValidConfig (cfg : LiquidationPriceConfig) : Prop :=
  0 < cfg.leverage ∧ 0 < cfg.priceDeviationPercent ∧ 0 < cfg.priceDeviationMultiplier ∧
    0 < cfg.orderSizeMultiplier ∧ 0 < cfg.initialEntryPrice ∧ 0 < cfg.initialMargin

instance (cfg : LiquidationPriceConfig) : Decidable (ValidConfig cfg) := by
  unfold ValidConfig; infer_instance

/-- Strict betweenness of adjacent rungs: the average entry price of the later
rung lies strictly between its own entry price and the earlier rung average
entry price. -/
def adjStrict (mode : TradingMode) (a b : PositionSnapshot) : Prop :=
  match mode with
  | TradingMode.LONG => b.entryPrice < b.avgEntryPrice ∧ b.avgEntryPrice < a.avgEntryPrice
  | TradingMode.SHORT => a.avgEntryPrice < b.avgEntryPrice ∧ b.avgEntryPrice < b.entryPrice

/-! The dual-side ladder builder of the backtest tool. -/

/-- A rung with its signed index and derived take-profit price. -/
structure PositionSnapshotWithTP extends PositionSnapshot where
  index : ℤ
  takeProfitPrice : ℚ
  deriving DecidableEq, Repr

/-- The value returned by `calculatePositionsBothSides`: both rung sequences
and one stop-loss price per side.  A stop-loss of `none` models the NaN the
source computes when a side has no rungs (`subtractPercentage(undefined, p)`). -/
structure LadderState where
  longPositions : List PositionSnapshotWithTP
  shortPositions : List PositionSnapshotWithTP
  longStopLossPrice : Option ℚ
  shortStopLossPrice : Option ℚ
  deriving DecidableEq, Repr

instance : Inhabited LadderState := ⟨⟨[], [], none, none⟩⟩

/-- The configuration of `calculatePositionsBothSides`: the simulator config
without a mode, plus the ladder depth cap and take-profit and stop-loss
percents. -/
structure BothSidesConfig where
  tradingPair : String
  leverage : ℚ
  priceDeviationPercent : ℚ
  priceDeviationMultiplier : ℚ
  orderSizeMultiplier : ℚ
  initialEntryPrice : ℚ
  initialMargin : ℚ
  maxOrdersPerSide : ℕ
  takeProfitPercent : ℚ
  stopLossPercent : ℚ
  deriving DecidableEq, Repr

/-- Spreading a `BothSidesConfig` into a simulator config with a mode. -/
def toLiquiConfig (c : BothSidesConfig) (mode : TradingMode) : LiquidationPriceConfig :=
  { tradingPair := c.tradingPair, mode := mode, leverage := c.leverage,
    priceDeviationPercent := c.priceDeviationPercent,
    priceDeviationMultiplier := c.priceDeviationMultiplier,
    orderSizeMultiplier := c.orderSizeMultiplier,
    initialEntryPrice := c.initialEntryPrice, initialMargin := c.initialMargin }

/-- Embeds `calculatePositionsBothSides`: run the simulator once per side,
truncate each side to `maxOrdersPerSide`, attach signed indices and
take-profit prices, and derive one stop-loss price per side from the last
available rung (none when a side is empty, where the source gets NaN). -/
def calculatePositionsBothSides (config : BothSidesConfig)
    (fileData : List SymbolRiskBracketInfo) : Except RunError LadderState :=
  match calculateLiquidationPrices (toLiquiConfig config TradingMode.LONG) fileData with
  | Except.error e => Except.error e
  | Except.ok longRaw =>
    let longPositions := (longRaw.take config.maxOrdersPerSide).enum.map fun p =>
      { toPositionSnapshot := p.2, index := -(p.1 : ℤ) - 1,
        takeProfitPrice := addPercentage p.2.avgEntryPrice config.takeProfitPercent }
    let longStopLossPrice := longPositions.getLast?.map fun r =>
      subtractPercentage r.avgEntryPrice config.stopLossPercent
    match calculateLiquidationPrices (toLiquiConfig config TradingMode.SHORT) fileData with
    | Except.error e => Except.error e
    | Except.ok shortRaw =>
      let shortPositions := (shortRaw.take config.maxOrdersPerSide).enum.map fun p =>
        { toPositionSnapshot := p.2, index := (p.1 : ℤ) + 1,
          takeProfitPrice := subtractPercentage p.2.avgEntryPrice config.takeProfitPercent }
      let shortStopLossPrice := shortPositions.getLast?.map fun r =>
        addPercentage r.avgEntryPrice config.stopLossPercent
      Except.ok { longPositions := longPositions, shortPositions := shortPositions,
                  longStopLossPrice := longStopLossPrice,
                  shortStopLossPrice := shortStopLossPrice }

/-! The backtest state machine. -/

/-- Terminal outcome tag of a resolution event. -/
inductive EndResult
  | PROFIT
  | LOSS
  deriving DecidableEq, Repr

/-- One transition record of the backtest event log. -/
structure BacktestEvent where
  time : ℤ
  stateTransitionFrom : ℤ
  stateTransitionTo : ℤ
  endResult : Option EndResult
  deriving DecidableEq, Repr

/-- One candle, with its OHLC fields already passed through `parseFloat`;
`none` models NaN, the result on a missing or non-numeric field. -/
structure Kline where
  time : ℤ
  openP : Option ℚ
  highP : Option ℚ
  lowP : Option ℚ
  closeP : Option ℚ
  deriving DecidableEq, Repr

/-- The backtest configuration: the shared ladder parameters, depth cap,
take-profit and stop-loss percents, the candle stream and the price
precision. -/
structure BacktestConfig where
  tradingPair : String
  leverage : ℚ
  priceDeviationPercent : ℚ
  priceDeviationMultiplier : ℚ
  orderSizeMultiplier : ℚ
  initialMargin : ℚ
  maxOrdersPerSide : ℕ
  takeProfitPercent : ℚ
  stopLossPercent : ℚ
  klines : List Kline
  pricePrecision : ℕ
  deriving Repr

/-- The `{...liquiConfig, initialEntryPrice: entryPrice}` spread used for
every ladder build of the backtest. -/
def backtestLiquiConfig (cfg : BacktestConfig) (entryPrice : ℚ) : BothSidesConfig :=
  { tradingPair := cfg.tradingPair, leverage := cfg.leverage,
    priceDeviationPercent := cfg.priceDeviationPercent,
    priceDeviationMultiplier := cfg.priceDeviationMultiplier,
    orderSizeMultiplier := cfg.orderSizeMultiplier,
    initialEntryPrice := entryPrice, initialMargin := cfg.initialMargin,
    maxOrdersPerSide := cfg.maxOrdersPerSide,
    takeProfitPercent := cfg.takeProfitPercent,
    stopLossPercent := cfg.stopLossPercent }

/-- The intrabar price path of a candle: open, then the two extremes in the
order implied by the candle direction, then close.  The source computes
`isGreen = close >= open` with JavaScript comparison semantics. -/
def priceMovement (k : Kline) : List (Option ℚ) :=
  if jsGe k.closeP k.openP then [k.openP, k.lowP, k.highP, k.closeP]
  else [k.openP, k.highP, k.lowP, k.closeP]

/-- The long take-profit branch shared by the intermediate-depth and max-depth
blocks: compare against the take-profit price of the current rung and on a
hit emit a PROFIT event, rebuild the ladder at the rounded take-profit price
and reset the state to 0. -/
def longTPBranch (cfg : BacktestConfig) (fileData : List SymbolRiskBracketInfo)
    (lp : LadderState) (time state : ℤ) (price : Option ℚ) :
    Except RunError (ℤ × LadderState × List BacktestEvent) :=
  match lp.longPositions.get? (state.natAbs - 1) with
  | none => Except.error RunError.undefinedAccess
  | some r =>
    if jsGe price (some (roundUp r.takeProfitPrice cfg.pricePrecision)) then
      match calculatePositionsBothSides
          (backtestLiquiConfig cfg (roundUp r.takeProfitPrice cfg.pricePrecision)) fileData with
      | Except.error e => Except.error e
      | Except.ok lpNew =>
        Except.ok (0, lpNew, [⟨time, state, 0, some EndResult.PROFIT⟩])
    else Except.ok (state, lp, [])

/-- The short take-profit branch shared by the intermediate-depth and
max-depth blocks. -/
def shortTPBranch (cfg : BacktestConfig) (fileData : List SymbolRiskBracketInfo)
    (lp : LadderState) (time state : ℤ) (price : Option ℚ) :
    Except RunError (ℤ × LadderState × List BacktestEvent) :=
  match lp.shortPositions.get? (state.natAbs - 1) with
  | none => Except.error RunError.undefinedAccess
  | some r =>
    if jsLe price (some (roundDown r.takeProfitPrice cfg.pricePrecision)) then
      match calculatePositionsBothSides
          (backtestLiquiConfig cfg (roundDown r.takeProfitPrice cfg.pricePrecision)) fileData with
      | Except.error e => Except.error e
      | Except.ok lpNew =>
        Except.ok (0, lpNew, [⟨time, state, 0, some EndResult.PROFIT⟩])
    else Except.ok (state, lp, [])

/-- The `if (state === 0)` block: enter two rungs deep on the side whose
rung-1 entry price is crossed.  The source reads `longPositions[1].entryPrice`
before the comparison, so a missing rung is a TypeError. -/
def runBlock1 (cfg : BacktestConfig) (lp : LadderState) (time state : ℤ)
    (price : Option ℚ) : Except RunError (ℤ × List BacktestEvent) :=
  if state = 0 then
    match lp.longPositions.get? 1 with
    | none => Except.error RunError.undefinedAccess
    | some r1 =>
      if jsLe price (some (roundDown r1.entryPrice cfg.pricePrecision)) then
        Except.ok (-2, [⟨time, state, -2, none⟩])
      else
        match lp.shortPositions.get? 1 with
        | none => Except.error RunError.undefinedAccess
        | some s1 =>
          if jsGe price (some (roundUp s1.entryPrice cfg.pricePrecision)) then
            Except.ok (2, [⟨time, state, 2, none⟩])
          else Except.ok (state, [])
  else Except.ok (state, [])

/-- The `if (2 <= Math.abs(state) && Math.abs(state) < maxOrdersPerSide)`
block: fill the next rung of the dominating side, or take profit.  The
branches guarded by the opposite sign are unreachable and folded away. -/
def runBlock2 (cfg : BacktestConfig) (fileData : List SymbolRiskBracketInfo)
    (lp : LadderState) (time state : ℤ) (price : Option ℚ) :
    Except RunError (ℤ × LadderState × List BacktestEvent) :=
  if 2 ≤ state.natAbs ∧ state.natAbs < cfg.maxOrdersPerSide then
    if state < 0 then
      match lp.longPositions.get? state.natAbs with
      | none => Except.error RunError.undefinedAccess
      | some r =>
        if jsLe price (some (roundDown r.entryPrice cfg.pricePrecision)) then
          Except.ok (state - 1, lp, [⟨time, state, state - 1, none⟩])
        else longTPBranch cfg fileData lp time state price
    else
      match lp.shortPositions.get? state.natAbs with
      | none => Except.error RunError.undefinedAccess
      | some r =>
        if jsGe price (some (roundUp r.entryPrice cfg.pricePrecision)) then
          Except.ok (state + 1, lp, [⟨time, state, state + 1, none⟩])
        else shortTPBranch cfg fileData lp time state price
  else Except.ok (state, lp, [])

/-- The `if (Math.abs(state) === maxOrdersPerSide)` block: stop loss or
deepest-rung take profit.  A `none` stop-loss price (NaN in the source) fails
the comparison, so the take-profit branch is evaluated next, matching the
else-if chain. -/
def runBlock3 (cfg : BacktestConfig) (fileData : List SymbolRiskBracketInfo)
    (lp : LadderState) (time state : ℤ) (price : Option ℚ) :
    Except RunError (ℤ × LadderState × List BacktestEvent) :=
  if state.natAbs = cfg.maxOrdersPerSide then
    if state < 0 then
      match lp.longStopLossPrice with
      | some sl =>
        if jsLe price (some (roundDown sl cfg.pricePrecision)) then
          match calculatePositionsBothSides
              (backtestLiquiConfig cfg (roundDown sl cfg.pricePrecision)) fileData with
          | Except.error e => Except.error e
          | Except.ok lpNew =>
            Except.ok (0, lpNew, [⟨time, state, 0, some EndResult.LOSS⟩])
        else longTPBranch cfg fileData lp time state price
      | none => longTPBranch cfg fileData lp time state price
    else
      match lp.shortStopLossPrice with
      | some sl =>
        if jsGe price (some (roundUp sl cfg.pricePrecision)) then
          match calculatePositionsBothSides
              (backtestLiquiConfig cfg (roundUp sl cfg.pricePrecision)) fileData with
          | Except.error e => Except.error e
          | Except.ok lpNew =>
            Except.ok (0, lpNew, [⟨time, state, 0, some EndResult.LOSS⟩])
        else shortTPBranch cfg fileData lp time state price
      | none => shortTPBranch cfg fileData lp time state price
  else Except.ok (state, lp, [])

/-- Processing of one sampled intrabar price: the three state blocks run in
sequence on the state left by the previous block, as in the source where they
are three separate if statements over the mutable `state`. -/
def stepPrice (cfg : BacktestConfig) (fileData : List SymbolRiskBracketInfo)
    (lp : LadderState) (time state : ℤ) (price : Option ℚ) :
    Except RunError (ℤ × LadderState × List BacktestEvent) :=
  match runBlock1 cfg lp time state price with
  | Except.error e => Except.error e
  | Except.ok (s1, ev1) =>
    match runBlock2 cfg fileData lp time s1 price with
    | Except.error e => Except.error e
    | Except.ok (s2, lp2, ev2) =>
      match runBlock3 cfg fileData lp2 time s2 price with
      | Except.error e => Except.error e
      | Except.ok (s3, lp3, ev3) => Except.ok (s3, lp3, ev1 ++ ev2 ++ ev3)

/-- Folding `stepPrice` over the sampled prices of one candle. -/
def stepPrices (cfg : BacktestConfig) (fileData : List SymbolRiskBracketInfo)
    (time : ℤ) : List (Option ℚ) → ℤ → LadderState →
    Except RunError (ℤ × LadderState × List BacktestEvent)
  | [], s, lp => Except.ok (s, lp, [])
  | p :: ps, s, lp =>
    match stepPrice cfg fileData lp time s p with
    | Except.error e => Except.error e
    | Except.ok (s1, lp1, ev1) =>
      match stepPrices cfg fileData time ps s1 lp1 with
      | Except.error e => Except.error e
      | Except.ok (s2, lp2, ev2) => Except.ok (s2, lp2, ev1 ++ ev2)

/-- Folding candle processing over the kline stream. -/
def stepKlines (cfg : BacktestConfig) (fileData : List SymbolRiskBracketInfo) :
    List Kline → ℤ → LadderState →
    Except RunError (ℤ × LadderState × List BacktestEvent)
  | [], s, lp => Except.ok (s, lp, [])
  | k :: ks, s, lp =>
    match stepPrices cfg fileData k.time (priceMovement k) s lp with
    | Except.error e => Except.error e
    | Except.ok (s1, lp1, ev1) =>
      match stepKlines cfg fileData ks s1 lp1 with
      | Except.error e => Except.error e
      | Except.ok (s2, lp2, ev2) => Except.ok (s2, lp2, ev1 ++ ev2)

/-- Embeds `backtest`: seed the ladder from the first candle open (returning
an empty log when it is missing, unparsable or zero, which are falsy in the
source), then walk every candle with state 0 initially. -/
def backtest (cfg : BacktestConfig) (fileData : List SymbolRiskBracketInfo) :
    Except RunError (List BacktestEvent) :=
  match cfg.klines.head? with
  | none => Except.ok []
  | some k0 =>
    match k0.openP with
    | none => Except.ok []
    | some e0 =>
      if e0 = 0 then Except.ok []
      else
        match calculatePositionsBothSides (backtestLiquiConfig cfg e0) fileData with
        | Except.error e => Except.error e
        | Except.ok lp0 =>
          match stepKlines cfg fileData cfg.klines 0 lp0 with
          | Except.error e => Except.error e
          | Except.ok (_, _, evs) => Except.ok evs

/-! Concrete scenarios. -/

/-- A configuration with three or more rungs and deviation multiplier 1, for
the C1 counterexample. -/
def cfgC1 : LiquidationPriceConfig :=
  { tradingPair := "X", mode := TradingMode.LONG, leverage := 1,
    priceDeviationPercent := 5, priceDeviationMultiplier := 1,
    orderSizeMultiplier := 1, initialEntryPrice := 100, initialMargin := 1 }

/-- The C4 configuration with zero leverage. -/
def cfgLev0 : LiquidationPriceConfig :=
  { tradingPair := "X", mode := TradingMode.LONG, leverage := 0,
    priceDeviationPercent := 5, priceDeviationMultiplier := 1,
    orderSizeMultiplier := 1, initialEntryPrice := 70000, initialMargin := 100 }

/-- The C4 configuration with zero initial entry price. -/
def cfgPrice0 : LiquidationPriceConfig :=
  { tradingPair := "X", mode := TradingMode.LONG, leverage := 2,
    priceDeviationPercent := 5, priceDeviationMultiplier := 1,
    orderSizeMultiplier := 1, initialEntryPrice := 0, initialMargin := 100 }

/-- A dual-side configuration whose high leverage self-liquidates after one
rung, below the requested depth of 2. -/
def cfgIns : BothSidesConfig :=
  { tradingPair := "X", leverage := 100, priceDeviationPercent := 5,
    priceDeviationMultiplier := 1, orderSizeMultiplier := 1,
    initialEntryPrice := 100, initialMargin := 1, maxOrdersPerSide := 2,
    takeProfitPercent := 1, stopLossPercent := 5 }

/-- The kline stream of the backtest scenarios: a flat candle, a candle with
an unparsable high, and a flat candle at the long rung-1 entry price. -/
def klinesBT : List Kline :=
  [⟨1, some 100, some 100, some 100, some 100⟩,
   ⟨2, some 100, none, some 100, some 100⟩,
   ⟨3, some 95, some 95, some 95, some 95⟩]

/-- The backtest configuration of the concrete scenarios. -/
def cfgBT : BacktestConfig :=
  { tradingPair := "X", leverage := 1, priceDeviationPercent := 5,
    priceDeviationMultiplier := 1, orderSizeMultiplier := 1, initialMargin := 1,
    maxOrdersPerSide := 2, takeProfitPercent := 1, stopLossPercent := 5,
    klines := klinesBT, pricePrecision := 0 }

/-- The ladder pair the backtest builds at seed price 100. -/
def lpBT0 : LadderState :=
  (calculatePositionsBothSides (backtestLiquiConfig cfgBT 100) sampleFileData).toOption.getD default


/-- The loop invariant carried between iterations of the simulator loop
(about the variables entering an iteration of index at least 1): positive
asset size, leveraged investment and margin step; the average entry price is
the leveraged investment divided by the asset size; the market price is the
initial price moved by the accumulated deviation; and the market price is on
the adverse side of the average. -/
structure SimInv (cfg : LiquidationPriceConfig) (v : SimVars) : Prop where
  posQ : 0 < v.positionAssetSize
  posL : 0 < v.totalLeveragedInvestment
  posW : 0 < v.marginToAdd
  avg_eq : v.averageEntryPrice = v.totalLeveragedInvestment / v.positionAssetSize
  mkt_eq : v.marketPrice =
    (match cfg.mode with
     | TradingMode.LONG => subtractPercentage cfg.initialEntryPrice v.totalDeviation
     | TradingMode.SHORT => addPercentage cfg.initialEntryPrice v.totalDeviation)
  mkt_le :
    (match cfg.mode with
     | TradingMode.LONG => v.marketPrice ≤ v.averageEntryPrice
     | TradingMode.SHORT => v.averageEntryPrice ≤ v.marketPrice)

/-- The per-event depth property of claim C5: both endpoint states of a
transition have magnitude at most `maxOrdersPerSide`, and a transition out
of a max-depth state resets to 0 and carries a PROFIT or LOSS tag. -/
def EventWithinDepth (maxOrders : ℕ) (e : BacktestEvent) : Prop :=
  e.stateTransitionFrom.natAbs ≤ maxOrders ∧ e.stateTransitionTo.natAbs ≤ maxOrders ∧
    (e.stateTransitionFrom.natAbs = maxOrders →
      e.stateTransitionTo = 0 ∧
        (e.endResult = some EndResult.PROFIT ∨ e.endResult = some EndResult.LOSS))

/-! Concrete values used by the witnesses, extracted from runs of the
embedded functions. -/

/-- The rung list of the C1 configuration. -/
def listC1 : List PositionSnapshot :=
  (calculateLiquidationPrices cfgC1 sampleFileData).toOption.getD []

/-- Rung 1 of the C1 configuration. -/
def rungC1a : PositionSnapshot := (listC1.get? 1).getD default

/-- Rung 2 of the C1 configuration. -/
def rungC1b : PositionSnapshot := (listC1.get? 2).getD default

/-- The rung list of the C8 configuration. -/
def listC8 : List PositionSnapshot :=
  (calculateLiquidationPrices cfgC8 sampleFileData).toOption.getD []

/-- Rung 0 of the C8 configuration. -/
def rungC8a : PositionSnapshot := (listC8.get? 0).getD default

/-- Rung 1 of the C8 configuration. -/
def rungC8b : PositionSnapshot := (listC8.get? 1).getD default

/-- The rung list of the zero-entry-price configuration. -/
def lPrice0 : List PositionSnapshot :=
  (calculateLiquidationPrices cfgPrice0 sampleFileData).toOption.getD []

/-- The long rung list of the insufficient-depth configuration. -/
def longInsC3 : List PositionSnapshot :=
  (calculateLiquidationPrices (toLiquiConfig cfgIns TradingMode.LONG) sampleFileData).toOption.getD []

/-- The short rung list of the insufficient-depth configuration. -/
def shortInsC3 : List PositionSnapshot :=
  (calculateLiquidationPrices (toLiquiConfig cfgIns TradingMode.SHORT) sampleFileData).toOption.getD []

/-- The result of stepping an unparsable sample from the flat state. -/
def stepNoneC2 : ℤ × LadderState × List BacktestEvent :=
  (stepPrice cfgBT sampleFileData lpBT0 7 0 none).toOption.getD default

/-- The event log of the concrete backtest run. -/
def evsBT : List BacktestEvent :=
  (backtest cfgBT sampleFileData).toOption.getD []

/-- The result of stepping price 92 from the flat state (two transitions). -/
def stepC6 : ℤ × LadderState × List BacktestEvent :=
  (stepPrice cfgBT sampleFileData lpBT0 9 0 (some 92)).toOption.getD default

/-- The result of stepping price 108 from short max depth (stop loss). -/
def stepC7 : ℤ × LadderState × List BacktestEvent :=
  (stepPrice cfgBT sampleFileData lpBT0 5 2 (some 108)).toOption.getD default

/-- The short stop-loss price of the seed ladder at 100. -/
def slpBT : ℚ := lpBT0.shortStopLossPrice.getD 0

instance (m : ℕ) (e : BacktestEvent) : Decidable (EventWithinDepth m e) := by
  unfold EventWithinDepth; infer_instance

/-! Concrete theorems decided by evaluation.  The Batteries rational
arithmetic operations are irreducible by default, which blocks evaluation
inside `decide`; they are made semireducible locally. -/

section ConcreteEvaluation

attribute [local semireducible] Rat.mul Rat.add Rat.sub Rat.inv

set_option synthInstance.maxSize 512 in
/-- C8: for the concrete LONG configuration (leverage 2, entry 70000, margin
100, deviation 5, multipliers 1 and 2) against the bracket with rate 0.005,
rung 0 has entry price 70000, margin added 100, asset quantity 200/70000,
average entry price 70000 and a liquidation price strictly below 70000, and
rung 1 has entry price 66500 = 70000 × 0.95. -/
theorem c8_concrete_scenario :
    (calculateLiquidationPrices cfgC8 sampleFileData).map (fun l =>
      ((l.get? 0).map fun s =>
        (s.entryPrice, s.orderSizeQuote, s.orderSizeBase, s.avgEntryPrice,
          decide (s.liquidationPrice < 70000)),
       (l.get? 1).map (·.entryPrice)))
      = Except.ok (some (70000, 100, 200 / 70000, 70000, true), some 66500) := by decide

/-- C1 counterexample: with deviation multiplier 1 and deviation percent 5,
rung 2 of the simulated ladder has entry price 90, whereas the previous rung
entry price 95 decreased by 5 percent is 90.25, so rung `i` is not the
previous rung price moved by the per-rung deviation percent. -/
theorem c1_counterexample :
    (calculateLiquidationPrices cfgC1 sampleFileData).map (fun l =>
      ((l.get? 1).map (·.entryPrice), (l.get? 2).map (·.entryPrice)))
      = Except.ok (some 95, some 90)
    ∧ subtractPercentage 95 cfgC1.priceDeviationPercent ≠ 90 := by
  exact ⟨rfl, by decide⟩

/-- C4 counterexample: with leverage 0 the simulator does not fail before the
loop; it returns Ok with a non-empty rung list (no InvalidConfig failure
exists anywhere in the code). -/
theorem c4_counterexample :
    (calculateLiquidationPrices cfgLev0 sampleFileData).map List.isEmpty
      = Except.ok false := by decide

/-- C3 counterexample: with leverage 100 both sides self-liquidate after one
rung, below the requested depth 2, yet the dual-side builder returns Ok with
the truncated one-rung sides instead of failing with InsufficientRungs. -/
theorem c3_counterexample :
    (calculatePositionsBothSides cfgIns sampleFileData).map (fun lp =>
      (lp.longPositions.length, lp.shortPositions.length)) = Except.ok (1, 1)
    ∧ cfgIns.maxOrdersPerSide = 2 := by exact ⟨by decide, rfl⟩

/-- C2 counterexample: the second candle of the stream has an unparsable high
field, yet the backtest does not abort: it returns Ok and still emits the
transition triggered by the third candle. -/
theorem c2_counterexample :
    (backtest cfgBT sampleFileData).map (List.map fun e =>
      (e.time, e.stateTransitionFrom, e.stateTransitionTo, e.endResult))
      = Except.ok [(3, 0, -2, none)]
    ∧ klinesBT.get? 1 = some ⟨2, some 100, none, some 100, some 100⟩ := by exact ⟨by decide, rfl⟩

/-- C6 counterexample: from state 0 the single sampled price 92 first fills
two rungs on the long side (event 0 to -2) and then, in the max-depth block
of the same sample, triggers the stop loss (event -2 to 0 tagged LOSS): two
events for one sampled price. -/
theorem c6_counterexample :
    (stepPrice cfgBT sampleFileData lpBT0 9 0 (some 92)).map (fun r =>
      (r.1, r.2.2.map fun e => (e.stateTransitionFrom, e.stateTransitionTo, e.endResult)))
      = Except.ok (0, [(0, -2, none), (-2, 0, some EndResult.LOSS)]) := by decide

end ConcreteEvaluation

/-! General lemmas about the simulator loop. -/

/-- Every rung snapshot produced by the loop at index `i + j` has the
closed-form entry price: the initial entry price moved by the cumulative
deviation, provided the running total deviation entering index `i` matches
the closed form. -/
theorem calcLoop_entryPrice (cfg : LiquidationPriceConfig) (brs : List RiskBracket) :
    ∀ fuel i v, v.totalDeviation = totalDeviationUpTo cfg (i - 1) →
      ∀ j s, (calcLoop cfg brs fuel i v).get? j = some s →
        s.entryPrice = rungPrice cfg (i + j) := by
  intro fuel
  induction fuel with
  | zero => intro i v _ j s hs; simp [calcLoop] at hs
  | succ fuel ih =>
    intro i v hv j s hs
    simp only [calcLoop] at hs
    split at hs
    · simp at hs
    · split at hs
      · simp at hs
      · cases hbr : findRiskBracket brs
            ((simUpdate cfg i v).marketPrice * (simUpdate cfg i v).positionAssetSize) with
        | none => rw [hbr] at hs; simp at hs
        | some riskBracket =>
          rw [hbr] at hs
          cases j with
          | zero =>
            simp only [List.get?_cons_zero, Option.some.injEq] at hs
            subst hs
            cases i with
            | zero =>
              cases hmode : cfg.mode <;>
                simp [simUpdate, rungPrice, hmode, totalDeviationUpTo,
                  subtractPercentage, addPercentage]
            | succ k =>
              have hv' : v.totalDeviation = totalDeviationUpTo cfg k := by simpa using hv
              cases hmode : cfg.mode <;>
                simp [simUpdate, rungPrice, hmode, totalDeviationUpTo, hv']
          | succ jj =>
            simp only [List.get?_cons_succ] at hs
            have hres := ih (i + 1) _ ?_ jj s hs
            · rw [hres]; congr 1; omega
            · cases i with
              | zero => simpa [simUpdate] using hv
              | succ k =>
                have hv' : v.totalDeviation = totalDeviationUpTo cfg k := by simpa using hv
                simp [simUpdate, hv', totalDeviationUpTo]

/-- The entry price of every rung returned by the simulator is the closed
form `rungPrice`. -/
theorem calculateLiquidationPrices_entryPrice (cfg : LiquidationPriceConfig)
    (fileData : List SymbolRiskBracketInfo) (l : List PositionSnapshot)
    (hok : calculateLiquidationPrices cfg fileData = Except.ok l) :
    ∀ j s, l.get? j = some s → s.entryPrice = rungPrice cfg j := by
  intro j s hs
  unfold calculateLiquidationPrices at hok
  split at hok
  · exact absurd hok (by simp)
  · cases hok
    have := calcLoop_entryPrice cfg _ 50 0 initialSimVars rfl j s hs
    simpa using this

/-- C1 amended: for adjacent rungs of the simulated ladder, the later rung
entry price equals the earlier one moved adversely by the per-rung deviation
percent OF THE INITIAL ENTRY PRICE (the loop accumulates the compounded
deviation percents additively and applies the total to the initial entry
price, so each step is a percentage of the initial price, not of the previous
rung price as the claim states). -/
theorem c1_amended_price_recurrence (cfg : LiquidationPriceConfig)
    (fileData : List SymbolRiskBracketInfo) (l : List PositionSnapshot)
    (i : ℕ) (a b : PositionSnapshot)
    (hok : calculateLiquidationPrices cfg fileData = Except.ok l)
    (ha : l.get? i = some a) (hb : l.get? (i + 1) = some b) :
    b.entryPrice =
      match cfg.mode with
      | TradingMode.LONG =>
          a.entryPrice - cfg.initialEntryPrice * deviationPercentThisRound cfg (i + 1) / 100
      | TradingMode.SHORT =>
          a.entryPrice + cfg.initialEntryPrice * deviationPercentThisRound cfg (i + 1) / 100 := by
  have hA := calculateLiquidationPrices_entryPrice cfg fileData l hok i a ha
  have hB := calculateLiquidationPrices_entryPrice cfg fileData l hok (i + 1) b hb
  rw [hA, hB]
  cases hmode : cfg.mode <;>
    simp [rungPrice, hmode, totalDeviationUpTo, subtractPercentage, addPercentage] <;>
    ring

/-- Every rung snapshot produced by the loop has a strictly positive entry
price: the loop breaks on a non-positive candidate price before pushing. -/
theorem calcLoop_entry_pos (cfg : LiquidationPriceConfig) (brs : List RiskBracket) :
    ∀ fuel i v s, s ∈ calcLoop cfg brs fuel i v → 0 < s.entryPrice := by
  intro fuel
  induction fuel with
  | zero => intro i v s hs; simp [calcLoop] at hs
  | succ fuel ih =>
    intro i v s hs
    simp only [calcLoop] at hs
    split at hs
    · simp at hs
    · split at hs
      · simp at hs
      · cases hbr : findRiskBracket brs
            ((simUpdate cfg i v).marketPrice * (simUpdate cfg i v).positionAssetSize) with
        | none => rw [hbr] at hs; simp at hs
        | some riskBracket =>
          rw [hbr] at hs
          rcases List.mem_cons.mp hs with h | h
          · subst h
            next hp _ => simpa using lt_of_not_le hp
          · exact ih (i + 1) _ s h

/-- C10: given a positive initial entry price, every rung snapshot returned
by the simulator has a strictly positive entry price (the loop halts before
appending any rung whose candidate entry price is non-positive). -/
theorem c10_positive_entry (cfg : LiquidationPriceConfig)
    (fileData : List SymbolRiskBracketInfo) (l : List PositionSnapshot)
    (hE : 0 < cfg.initialEntryPrice)
    (hok : calculateLiquidationPrices cfg fileData = Except.ok l) :
    ∀ s ∈ l, 0 < s.entryPrice := by
  intro s hs
  unfold calculateLiquidationPrices at hok
  split at hok
  · exact absurd hok (by simp)
  · cases hok
    exact calcLoop_entry_pos cfg _ 50 0 initialSimVars s hs

/-! Machinery for the volume-weighted average betweenness property. -/

/-- Adding weight `w` at price `p` below the current average `A = L / Q`
moves the average strictly toward `p` without reaching it. -/
theorem avg_step_long {L Q w p A : ℚ} (hQ : 0 < Q) (hw : 0 < w) (hp : 0 < p)
    (hA : A = L / Q) (hpA : p < A) :
    p < (L + w) / (Q + w / p) ∧ (L + w) / (Q + w / p) < A := by
  have hp0 : p ≠ 0 := ne_of_gt hp
  have hk : 0 < w / p := div_pos hw hp
  have hQ' : 0 < Q + w / p := add_pos hQ hk
  have hLp : p * Q < L := by
    have hAL : A * Q = L := by rw [hA]; field_simp
    calc p * Q < A * Q := mul_lt_mul_of_pos_right hpA hQ
    _ = L := hAL
  constructor
  · rw [lt_div_iff hQ']
    have hexp : p * (Q + w / p) = p * Q + w := by field_simp; ring
    rw [hexp]; linarith
  · rw [hA, div_lt_div_iff hQ' hQ]
    have h2 : w * Q < L * (w / p) := by
      rw [← mul_div_assoc, lt_div_iff hp]
      nlinarith [mul_lt_mul_of_pos_right hLp hw]
    calc (L + w) * Q = L * Q + w * Q := by ring
    _ < L * Q + L * (w / p) := by linarith
    _ = L * (Q + w / p) := by ring

/-- Adding weight `w` at price `p` above the current average `A = L / Q`
moves the average strictly toward `p` without reaching it. -/
theorem avg_step_short {L Q w p A : ℚ} (hQ : 0 < Q) (hw : 0 < w) (hp : 0 < p)
    (hA : A = L / Q) (hpA : A < p) :
    A < (L + w) / (Q + w / p) ∧ (L + w) / (Q + w / p) < p := by
  have hp0 : p ≠ 0 := ne_of_gt hp
  have hk : 0 < w / p := div_pos hw hp
  have hQ' : 0 < Q + w / p := add_pos hQ hk
  have hLp : L < p * Q := by
    have hAL : A * Q = L := by rw [hA]; field_simp
    calc L = A * Q := hAL.symm
    _ < p * Q := mul_lt_mul_of_pos_right hpA hQ
  constructor
  · rw [hA, div_lt_div_iff hQ hQ']
    have h2 : L * (w / p) < w * Q := by
      rw [← mul_div_assoc, div_lt_iff hp]
      nlinarith [mul_lt_mul_of_pos_right hLp hw]
    calc L * (Q + w / p) = L * Q + L * (w / p) := by ring
    _ < L * Q + w * Q := by linarith
    _ = (L + w) * Q := by ring
  · rw [div_lt_iff hQ']
    have hexp : p * (Q + w / p) = p * Q + w := by field_simp; ring
    rw [hexp]; linarith

/-- The per-rung deviation percent is positive for a valid configuration. -/
theorem deviationPercentThisRound_pos (cfg : LiquidationPriceConfig)
    (hd : 0 < cfg.priceDeviationPercent) (hm : 0 < cfg.priceDeviationMultiplier)
    (i : ℕ) : 0 < deviationPercentThisRound cfg i := by
  unfold deviationPercentThisRound
  split
  · exact mul_pos hd (pow_pos hm _)
  · simpa using hd

/-- One non-seed update of the simulator variables preserves the invariant
and moves the average strictly between the new price and the old average,
provided the new market price is positive. -/
theorem simUpdate_inv (cfg : LiquidationPriceConfig) (hv : ValidConfig cfg)
    (i : ℕ) (hi : i ≠ 0) (v : SimVars) (hInv : SimInv cfg v)
    (hp : 0 < (simUpdate cfg i v).marketPrice) :
    SimInv cfg (simUpdate cfg i v) ∧
      (match cfg.mode with
       | TradingMode.LONG =>
           (simUpdate cfg i v).marketPrice < (simUpdate cfg i v).averageEntryPrice ∧
             (simUpdate cfg i v).averageEntryPrice < v.averageEntryPrice
       | TradingMode.SHORT =>
           v.averageEntryPrice < (simUpdate cfg i v).averageEntryPrice ∧
             (simUpdate cfg i v).averageEntryPrice < (simUpdate cfg i v).marketPrice) := by
  obtain ⟨hlev, hd, hm, hx, hE, hM⟩ := hv
  obtain ⟨hQ, hL, hW, havg, hmkt, hle⟩ := hInv
  have hdpr : 0 < deviationPercentThisRound cfg i := deviationPercentThisRound_pos cfg hd hm i
  have hw' : 0 < v.marginToAdd * cfg.orderSizeMultiplier := mul_pos hW hx
  have hlw : 0 < cfg.leverage * (v.marginToAdd * cfg.orderSizeMultiplier) := mul_pos hlev hw'
  cases hmode : cfg.mode with
  | LONG =>
    rw [hmode] at hmkt hle
    simp only [simUpdate, if_neg hi, hmode] at hp ⊢
    have hstep : subtractPercentage cfg.initialEntryPrice
        (v.totalDeviation + deviationPercentThisRound cfg i)
        = v.marketPrice - cfg.initialEntryPrice * deviationPercentThisRound cfg i / 100 := by
      rw [hmkt]; unfold subtractPercentage; ring
    have hpp : subtractPercentage cfg.initialEntryPrice
        (v.totalDeviation + deviationPercentThisRound cfg i) < v.averageEntryPrice := by
      rw [hstep]
      have : 0 < cfg.initialEntryPrice * deviationPercentThisRound cfg i / 100 := by positivity
      linarith
    have hbetween := avg_step_long (L := v.totalLeveragedInvestment)
      (Q := v.positionAssetSize)
      (w := cfg.leverage * (v.marginToAdd * cfg.orderSizeMultiplier))
      (p := subtractPercentage cfg.initialEntryPrice
        (v.totalDeviation + deviationPercentThisRound cfg i))
      (A := v.averageEntryPrice) hQ hlw (by simpa using hp) havg hpp
    refine ⟨⟨?_, ?_, ?_, ?_, ?_, ?_⟩, ?_, ?_⟩
    · simpa [hmode] using add_pos hQ (div_pos hlw (by simpa using hp))
    · simpa [hmode] using add_pos hL hlw
    · simpa [hmode] using hw'
    · simp [hmode]
    · simp [hmode]
    · simpa [hmode] using le_of_lt hbetween.1
    · simpa [hmode] using hbetween.1
    · simpa [hmode] using hbetween.2
  | SHORT =>
    rw [hmode] at hmkt hle
    simp only [simUpdate, if_neg hi, hmode] at hp ⊢
    have hstep : addPercentage cfg.initialEntryPrice
        (v.totalDeviation + deviationPercentThisRound cfg i)
        = v.marketPrice + cfg.initialEntryPrice * deviationPercentThisRound cfg i / 100 := by
      rw [hmkt]; unfold addPercentage; ring
    have hpp : v.averageEntryPrice < addPercentage cfg.initialEntryPrice
        (v.totalDeviation + deviationPercentThisRound cfg i) := by
      rw [hstep]
      have : 0 < cfg.initialEntryPrice * deviationPercentThisRound cfg i / 100 := by positivity
      linarith
    have hbetween := avg_step_short (L := v.totalLeveragedInvestment)
      (Q := v.positionAssetSize)
      (w := cfg.leverage * (v.marginToAdd * cfg.orderSizeMultiplier))
      (p := addPercentage cfg.initialEntryPrice
        (v.totalDeviation + deviationPercentThisRound cfg i))
      (A := v.averageEntryPrice) hQ hlw (by simpa using hp) havg hpp
    refine ⟨⟨?_, ?_, ?_, ?_, ?_, ?_⟩, ?_, ?_⟩
    · simpa [hmode] using add_pos hQ (div_pos hlw (by simpa using hp))
    · simpa [hmode] using add_pos hL hlw
    · simpa [hmode] using hw'
    · simp [hmode]
    · simp [hmode]
    · simpa [hmode] using le_of_lt hbetween.2
    · simpa [hmode] using hbetween.1
    · simpa [hmode] using hbetween.2

/-- Consecutive entries of a list chained under `R` (with head `a`) are
related. -/
theorem chain_get?_rel {α : Type} {R : α → α → Prop} :
    ∀ (a : α) (l : List α), List.Chain R a l →
      ∀ n x y, (a :: l).get? n = some x → (a :: l).get? (n + 1) = some y → R x y := by
  intro a l
  induction l generalizing a with
  | nil =>
    intro _ n x y _ hy
    rw [List.get?_cons_succ] at hy
    simp at hy
  | cons b t ih =>
    intro hc n x y hx hy
    rw [List.chain_cons] at hc
    cases n with
    | zero =>
      simp only [List.get?_cons_zero, Option.some.injEq] at hx
      simp only [List.get?_cons_succ, List.get?_cons_zero, Option.some.injEq] at hy
      subst hx; subst hy
      exact hc.1
    | succ m =>
      rw [List.get?_cons_succ] at hx hy
      exact ih b hc.2 m x y hx hy

/-- Consecutive entries of a `Chain'`-chained list are related. -/
theorem chain'_rel_of_get? {α : Type} {R : α → α → Prop} :
    ∀ (l : List α), List.Chain' R l →
      ∀ n x y, l.get? n = some x → l.get? (n + 1) = some y → R x y := by
  intro l hl n x y hx hy
  cases l with
  | nil => simp at hx
  | cons a t => exact chain_get?_rel a t hl n x y hx hy

/-- The invariant does not involve the stored liquidation price. -/
theorem SimInv.update_liq {cfg : LiquidationPriceConfig} {v : SimVars}
    (h : SimInv cfg v) (x : ℚ) :
    SimInv cfg { v with liquidationPrice := x } :=
  ⟨h.posQ, h.posL, h.posW, h.avg_eq, h.mkt_eq, h.mkt_le⟩

/-- From any iteration of index at least 1 whose variables satisfy the
invariant, the rung snapshots produced by the loop are chained under strict
betweenness, starting from any snapshot carrying the current average. -/
theorem calcLoop_chain (cfg : LiquidationPriceConfig) (brs : List RiskBracket)
    (hvc : ValidConfig cfg) :
    ∀ fuel i v, i ≠ 0 → SimInv cfg v →
      ∀ a : PositionSnapshot, a.avgEntryPrice = v.averageEntryPrice →
        List.Chain (adjStrict cfg.mode) a (calcLoop cfg brs fuel i v) := by
  intro fuel
  induction fuel with
  | zero => intro i v _ _ a _; simp only [calcLoop]; exact List.Chain.nil
  | succ fuel ih =>
    intro i v hi hInv a ha
    simp only [calcLoop]
    split
    · exact List.Chain.nil
    · rename_i hple
      split
      · exact List.Chain.nil
      · cases hbr : findRiskBracket brs
            ((simUpdate cfg i v).marketPrice * (simUpdate cfg i v).positionAssetSize) with
        | none => exact List.Chain.nil
        | some riskBracket =>
          have hp : 0 < (simUpdate cfg i v).marketPrice := lt_of_not_le hple
          obtain ⟨hInv1, hbet⟩ := simUpdate_inv cfg hvc i hi v hInv hp
          refine List.chain_cons.mpr ⟨?_, ?_⟩
          · cases hmode : cfg.mode with
            | LONG =>
              simp only [hmode] at hbet
              simp only [adjStrict, hmode]
              exact ⟨hbet.1, by rw [ha]; exact hbet.2⟩
            | SHORT =>
              simp only [hmode] at hbet
              simp only [adjStrict, hmode]
              exact ⟨by rw [ha]; exact hbet.1, hbet.2⟩
          · refine ih (i + 1) _ (Nat.succ_ne_zero i) (hInv1.update_liq _) _ ?_
            rfl

/-- The full rung list produced from the loop start (index 0, zero
accumulated deviation) is chained under strict betweenness. -/
theorem calcLoop_chain_from_start (cfg : LiquidationPriceConfig) (brs : List RiskBracket)
    (hvc : ValidConfig cfg) :
    ∀ fuel v, v.totalDeviation = 0 →
      List.Chain' (adjStrict cfg.mode) (calcLoop cfg brs fuel 0 v) := by
  intro fuel v htd
  obtain ⟨hlev, hd, hm, hx, hE, hM⟩ := hvc
  cases fuel with
  | zero => simp [calcLoop]
  | succ fuel =>
    simp only [calcLoop]
    split
    · simp
    · rename_i hple
      split
      · simp
      · cases hbr : findRiskBracket brs
            ((simUpdate cfg 0 v).marketPrice * (simUpdate cfg 0 v).positionAssetSize) with
        | none => simp
        | some riskBracket =>
          have hE0 : cfg.initialEntryPrice ≠ 0 := ne_of_gt hE
          have hLM : cfg.leverage * cfg.initialMargin ≠ 0 := ne_of_gt (mul_pos hlev hM)
          refine calcLoop_chain cfg brs ⟨hlev, hd, hm, hx, hE, hM⟩ fuel 1 _
            one_ne_zero ⟨?_, ?_, ?_, ?_, ?_, ?_⟩ _ rfl
          · simpa [simUpdate] using div_pos (mul_pos hlev hM) hE
          · simpa [simUpdate] using mul_pos hlev hM
          · simpa [simUpdate] using hM
          · simp only [simUpdate, if_pos rfl]
            field_simp
          · cases hmode : cfg.mode <;>
              simp [simUpdate, hmode, htd, subtractPercentage, addPercentage]
          · cases hmode : cfg.mode <;> simp [simUpdate, hmode]

/-- C9: for a valid configuration, the average entry price of each rung after
the first lies strictly between that rung entry price and the previous rung
average entry price. -/
theorem c9_avg_between (cfg : LiquidationPriceConfig)
    (fileData : List SymbolRiskBracketInfo) (l : List PositionSnapshot)
    (i : ℕ) (a b : PositionSnapshot) (hvc : ValidConfig cfg)
    (hok : calculateLiquidationPrices cfg fileData = Except.ok l)
    (ha : l.get? i = some a) (hb : l.get? (i + 1) = some b) :
    adjStrict cfg.mode a b := by
  unfold calculateLiquidationPrices at hok
  split at hok
  · exact absurd hok (by simp)
  · cases hok
    exact chain'_rel_of_get? _
      (calcLoop_chain_from_start cfg _ hvc 50 initialSimVars rfl) i a b ha hb

/-! Characterization of the backtest blocks. -/

theorem jsLe_none_left (b : Option ℚ) : jsLe none b = false := by cases b <;> rfl

theorem jsLe_none_right (a : Option ℚ) : jsLe a none = false := by cases a <;> rfl

theorem jsGe_none_left (b : Option ℚ) : jsGe none b = false := by cases b <;> rfl

theorem jsGe_none_right (a : Option ℚ) : jsGe a none = false := by cases a <;> rfl

/-- Outcomes of the long take-profit branch: no hit (unchanged state, ladder
and no event), or a PROFIT resolution with a rebuilt ladder. -/
theorem longTPBranch_spec (cfg : BacktestConfig) (fd : List SymbolRiskBracketInfo)
    (lp : LadderState) (t s : ℤ) (p : Option ℚ) (r : ℤ × LadderState × List BacktestEvent)
    (h : longTPBranch cfg fd lp t s p = Except.ok r) :
    r = (s, lp, []) ∨
      (r.1 = 0 ∧ r.2.2 = [⟨t, s, 0, some EndResult.PROFIT⟩] ∧
        ∃ q, calculatePositionsBothSides (backtestLiquiConfig cfg q) fd = Except.ok r.2.1) := by
  unfold longTPBranch at h
  split at h
  · simp at h
  · rename_i rr hget
    split at h
    · split at h
      · simp at h
      · rename_i lpNew hnew
        right
        obtain rfl := Except.ok.inj h
        exact ⟨rfl, rfl, ⟨roundUp rr.takeProfitPrice cfg.pricePrecision, hnew⟩⟩
    · left
      exact (Except.ok.inj h).symm

/-- Outcomes of the short take-profit branch. -/
theorem shortTPBranch_spec (cfg : BacktestConfig) (fd : List SymbolRiskBracketInfo)
    (lp : LadderState) (t s : ℤ) (p : Option ℚ) (r : ℤ × LadderState × List BacktestEvent)
    (h : shortTPBranch cfg fd lp t s p = Except.ok r) :
    r = (s, lp, []) ∨
      (r.1 = 0 ∧ r.2.2 = [⟨t, s, 0, some EndResult.PROFIT⟩] ∧
        ∃ q, calculatePositionsBothSides (backtestLiquiConfig cfg q) fd = Except.ok r.2.1) := by
  unfold shortTPBranch at h
  split at h
  · simp at h
  · rename_i rr hget
    split at h
    · split at h
      · simp at h
      · rename_i lpNew hnew
        right
        obtain rfl := Except.ok.inj h
        exact ⟨rfl, rfl, ⟨roundDown rr.takeProfitPrice cfg.pricePrecision, hnew⟩⟩
    · left
      exact (Except.ok.inj h).symm

/-- Outcomes of the flat-state entry block: nothing, or entry two rungs deep
on one side, which requires that side to hold at least two rungs. -/
theorem runBlock1_spec (cfg : BacktestConfig) (lp : LadderState) (t s : ℤ)
    (p : Option ℚ) (s1 : ℤ) (ev : List BacktestEvent)
    (h : runBlock1 cfg lp t s p = Except.ok (s1, ev)) :
    (s1 = s ∧ ev = []) ∨
      (s = 0 ∧ 1 < lp.longPositions.length ∧ s1 = -2 ∧ ev = [⟨t, 0, -2, none⟩]) ∨
      (s = 0 ∧ 1 < lp.shortPositions.length ∧ s1 = 2 ∧ ev = [⟨t, 0, 2, none⟩]) := by
  unfold runBlock1 at h
  split at h
  · rename_i hs0
    subst hs0
    split at h
    · simp at h
    · rename_i r1 hget1
      have hlen1 : 1 < lp.longPositions.length := by
        obtain ⟨hlt, -⟩ := List.get?_eq_some.mp hget1
        exact hlt
      split at h
      · right; left
        obtain ⟨h1, h2⟩ := Prod.mk.injEq .. ▸ Except.ok.inj h
        exact ⟨rfl, hlen1, h1.symm, h2.symm⟩
      · split at h
        · simp at h
        · rename_i r2 hget2
          have hlen2 : 1 < lp.shortPositions.length := by
            obtain ⟨hlt, -⟩ := List.get?_eq_some.mp hget2
            exact hlt
          split at h
          · right; right
            obtain ⟨h1, h2⟩ := Prod.mk.injEq .. ▸ Except.ok.inj h
            exact ⟨rfl, hlen2, h1.symm, h2.symm⟩
          · left
            obtain ⟨h1, h2⟩ := Prod.mk.injEq .. ▸ Except.ok.inj h
            exact ⟨h1.symm, h2.symm⟩
  · left
    obtain ⟨h1, h2⟩ := Prod.mk.injEq .. ▸ Except.ok.inj h
    exact ⟨h1.symm, h2.symm⟩

/-- Outcomes of the intermediate-depth block: nothing, or (under its depth
guard) one deeper fill on the dominating side, or a PROFIT resolution with a
rebuilt ladder. -/
theorem runBlock2_spec (cfg : BacktestConfig) (fd : List SymbolRiskBracketInfo)
    (lp : LadderState) (t s : ℤ) (p : Option ℚ) (s2 : ℤ) (lp2 : LadderState)
    (ev : List BacktestEvent)
    (h : runBlock2 cfg fd lp t s p = Except.ok (s2, lp2, ev)) :
    (s2 = s ∧ lp2 = lp ∧ ev = []) ∨
      (2 ≤ s.natAbs ∧ s.natAbs < cfg.maxOrdersPerSide ∧
        ((s < 0 ∧ s2 = s - 1 ∧ lp2 = lp ∧ ev = [⟨t, s, s - 1, none⟩]) ∨
         (0 < s ∧ s2 = s + 1 ∧ lp2 = lp ∧ ev = [⟨t, s, s + 1, none⟩]) ∨
         (s2 = 0 ∧ ev = [⟨t, s, 0, some EndResult.PROFIT⟩] ∧
           ∃ q, calculatePositionsBothSides (backtestLiquiConfig cfg q) fd = Except.ok lp2))) := by
  unfold runBlock2 at h
  split at h
  · rename_i hguard
    split at h
    · rename_i hneg
      split at h
      · simp at h
      · rename_i r hget
        split at h
        · have hinj := Except.ok.inj h
          simp only [Prod.mk.injEq] at hinj
          obtain ⟨rfl, rfl, rfl⟩ := hinj
          exact Or.inr ⟨hguard.1, hguard.2, Or.inl ⟨hneg, rfl, rfl, rfl⟩⟩
        · rcases longTPBranch_spec cfg fd lp t s p _ h with hr | ⟨h1, h2, h3⟩
          · have hinj := hr
            simp only [Prod.mk.injEq] at hinj
            exact Or.inl hinj
          · exact Or.inr ⟨hguard.1, hguard.2, Or.inr (Or.inr ⟨h1, h2, h3⟩)⟩
    · rename_i hnonneg
      split at h
      · simp at h
      · rename_i r hget
        split at h
        · have hpos : 0 < s := by
            have h2 := hguard.1
            rcases lt_trichotomy s 0 with hlt | heq | hgt
            · exact absurd hlt hnonneg
            · subst heq; simp at h2
            · exact hgt
          have hinj := Except.ok.inj h
          simp only [Prod.mk.injEq] at hinj
          obtain ⟨rfl, rfl, rfl⟩ := hinj
          exact Or.inr ⟨hguard.1, hguard.2, Or.inr (Or.inl ⟨hpos, rfl, rfl, rfl⟩)⟩
        · rcases shortTPBranch_spec cfg fd lp t s p _ h with hr | ⟨h1, h2, h3⟩
          · have hinj := hr
            simp only [Prod.mk.injEq] at hinj
            exact Or.inl hinj
          · exact Or.inr ⟨hguard.1, hguard.2, Or.inr (Or.inr ⟨h1, h2, h3⟩)⟩
  · have hinj := Except.ok.inj h
    simp only [Prod.mk.injEq] at hinj
    obtain ⟨rfl, rfl, rfl⟩ := hinj
    exact Or.inl ⟨rfl, rfl, rfl⟩

/-- Outcomes of the max-depth block: nothing, or (at depth equal to
`maxOrdersPerSide`) a PROFIT or LOSS resolution with a rebuilt ladder. -/
theorem runBlock3_spec (cfg : BacktestConfig) (fd : List SymbolRiskBracketInfo)
    (lp : LadderState) (t s : ℤ) (p : Option ℚ) (s3 : ℤ) (lp3 : LadderState)
    (ev : List BacktestEvent)
    (h : runBlock3 cfg fd lp t s p = Except.ok (s3, lp3, ev)) :
    (s3 = s ∧ lp3 = lp ∧ ev = []) ∨
      (s.natAbs = cfg.maxOrdersPerSide ∧ s3 = 0 ∧
        (ev = [⟨t, s, 0, some EndResult.PROFIT⟩] ∨ ev = [⟨t, s, 0, some EndResult.LOSS⟩]) ∧
        ∃ q, calculatePositionsBothSides (backtestLiquiConfig cfg q) fd = Except.ok lp3) := by
  unfold runBlock3 at h
  split at h
  · rename_i hmax
    have hTPlong : longTPBranch cfg fd lp t s p = Except.ok (s3, lp3, ev) →
        (s3 = s ∧ lp3 = lp ∧ ev = []) ∨
          (s.natAbs = cfg.maxOrdersPerSide ∧ s3 = 0 ∧
            (ev = [⟨t, s, 0, some EndResult.PROFIT⟩] ∨ ev = [⟨t, s, 0, some EndResult.LOSS⟩]) ∧
            ∃ q, calculatePositionsBothSides (backtestLiquiConfig cfg q) fd = Except.ok lp3) := by
      intro htp
      rcases longTPBranch_spec cfg fd lp t s p _ htp with hr | ⟨h1, h2, h3⟩
      · have hinj := hr
        simp only [Prod.mk.injEq] at hinj
        exact Or.inl hinj
      · exact Or.inr ⟨hmax, h1, Or.inl h2, h3⟩
    have hTPshort : shortTPBranch cfg fd lp t s p = Except.ok (s3, lp3, ev) →
        (s3 = s ∧ lp3 = lp ∧ ev = []) ∨
          (s.natAbs = cfg.maxOrdersPerSide ∧ s3 = 0 ∧
            (ev = [⟨t, s, 0, some EndResult.PROFIT⟩] ∨ ev = [⟨t, s, 0, some EndResult.LOSS⟩]) ∧
            ∃ q, calculatePositionsBothSides (backtestLiquiConfig cfg q) fd = Except.ok lp3) := by
      intro htp
      rcases shortTPBranch_spec cfg fd lp t s p _ htp with hr | ⟨h1, h2, h3⟩
      · have hinj := hr
        simp only [Prod.mk.injEq] at hinj
        exact Or.inl hinj
      · exact Or.inr ⟨hmax, h1, Or.inl h2, h3⟩
    split at h
    · split at h
      · split at h
        · split at h
          · simp at h
          · rename_i sl hsl lpNew hnew
            have hinj := Except.ok.inj h
            simp only [Prod.mk.injEq] at hinj
            obtain ⟨rfl, rfl, rfl⟩ := hinj
            exact Or.inr ⟨hmax, rfl, Or.inr rfl, ⟨_, hnew⟩⟩
        · exact hTPlong h
      · exact hTPlong h
    · split at h
      · split at h
        · split at h
          · simp at h
          · rename_i sl hsl lpNew hnew
            have hinj := Except.ok.inj h
            simp only [Prod.mk.injEq] at hinj
            obtain ⟨rfl, rfl, rfl⟩ := hinj
            exact Or.inr ⟨hmax, rfl, Or.inr rfl, ⟨_, hnew⟩⟩
        · exact hTPshort h
      · exact hTPshort h
  · have hinj := Except.ok.inj h
    simp only [Prod.mk.injEq] at hinj
    obtain ⟨rfl, rfl, rfl⟩ := hinj
    exact Or.inl ⟨rfl, rfl, rfl⟩

/-- A successful sample step decomposes into the three successful block
runs, chained on the intermediate states, with the events concatenated. -/
theorem stepPrice_ok_elim (cfg : BacktestConfig) (fd : List SymbolRiskBracketInfo)
    (lp : LadderState) (t s : ℤ) (p : Option ℚ)
    (r : ℤ × LadderState × List BacktestEvent)
    (h : stepPrice cfg fd lp t s p = Except.ok r) :
    ∃ s1 ev1 s2 lp2 ev2 s3 lp3 ev3,
      runBlock1 cfg lp t s p = Except.ok (s1, ev1) ∧
      runBlock2 cfg fd lp t s1 p = Except.ok (s2, lp2, ev2) ∧
      runBlock3 cfg fd lp2 t s2 p = Except.ok (s3, lp3, ev3) ∧
      r = (s3, lp3, ev1 ++ ev2 ++ ev3) := by
  unfold stepPrice at h
  split at h
  · simp at h
  · rename_i s1 ev1 h1
    split at h
    · simp at h
    · rename_i s2 lp2 ev2 h2
      split at h
      · simp at h
      · rename_i s3 lp3 ev3 h3
        exact ⟨s1, ev1, s2, lp2, ev2, s3, lp3, ev3, h1, h2, h3, (Except.ok.inj h).symm⟩

/-- Both sides of a built ladder hold at most `maxOrdersPerSide` rungs. -/
theorem calculatePositionsBothSides_length (cfg : BothSidesConfig)
    (fd : List SymbolRiskBracketInfo) (lp : LadderState)
    (h : calculatePositionsBothSides cfg fd = Except.ok lp) :
    lp.longPositions.length ≤ cfg.maxOrdersPerSide ∧
      lp.shortPositions.length ≤ cfg.maxOrdersPerSide := by
  unfold calculatePositionsBothSides at h
  split at h
  · simp at h
  · rename_i longRaw hA
    split at h
    · simp at h
    · rename_i shortRaw hB
      obtain rfl := Except.ok.inj h
      constructor <;>
        simp [List.length_map, List.enum_length, List.length_take]

/-- Constructor form of the depth property with the record fields exposed. -/
theorem eventWithinDepth_mk (maxOrders : ℕ) (t a b : ℤ) (tag : Option EndResult)
    (h1 : a.natAbs ≤ maxOrders) (h2 : b.natAbs ≤ maxOrders)
    (h3 : a.natAbs = maxOrders →
      b = 0 ∧ (tag = some EndResult.PROFIT ∨ tag = some EndResult.LOSS)) :
    EventWithinDepth maxOrders ⟨t, a, b, tag⟩ := ⟨h1, h2, h3⟩

/-- One sample step keeps the ladder sides within the depth cap and emits
only events satisfying the depth property. -/
theorem stepPrice_events (cfg : BacktestConfig) (fd : List SymbolRiskBracketInfo)
    (lp : LadderState) (t s : ℤ) (p : Option ℚ)
    (s' : ℤ) (lp' : LadderState) (evs : List BacktestEvent)
    (hL : lp.longPositions.length ≤ cfg.maxOrdersPerSide)
    (hS : lp.shortPositions.length ≤ cfg.maxOrdersPerSide)
    (h : stepPrice cfg fd lp t s p = Except.ok (s', lp', evs)) :
    lp'.longPositions.length ≤ cfg.maxOrdersPerSide ∧
      lp'.shortPositions.length ≤ cfg.maxOrdersPerSide ∧
      ∀ e ∈ evs, EventWithinDepth cfg.maxOrdersPerSide e := by
  obtain ⟨s1, ev1, s2, lp2, ev2, s3, lp3, ev3, h1, h2, h3, hr⟩ :=
    stepPrice_ok_elim cfg fd lp t s p _ h
  have hinj := hr
  simp only [Prod.mk.injEq] at hinj
  obtain ⟨rfl, rfl, rfl⟩ := hinj
  have hev1 : ∀ e ∈ ev1, EventWithinDepth cfg.maxOrdersPerSide e := by
    rcases runBlock1_spec cfg lp t s p s1 ev1 h1 with ⟨_, rfl⟩ | ⟨_, hlen, _, rfl⟩ | ⟨_, hlen, _, rfl⟩ <;>
      intro e he <;> simp at he
    · subst he
      exact eventWithinDepth_mk _ _ _ _ _ (by omega) (by omega)
        (fun h0 => absurd h0 (by omega))
    · subst he
      exact eventWithinDepth_mk _ _ _ _ _ (by omega) (by omega)
        (fun h0 => absurd h0 (by omega))
  have hlp2 : lp2.longPositions.length ≤ cfg.maxOrdersPerSide ∧
      lp2.shortPositions.length ≤ cfg.maxOrdersPerSide := by
    rcases runBlock2_spec cfg fd lp t s1 p s2 lp2 ev2 h2 with ⟨_, rfl, _⟩ | ⟨_, _, hcase⟩
    · exact ⟨hL, hS⟩
    · rcases hcase with ⟨_, _, rfl, _⟩ | ⟨_, _, rfl, _⟩ | ⟨_, _, q, hq⟩
      · exact ⟨hL, hS⟩
      · exact ⟨hL, hS⟩
      · exact calculatePositionsBothSides_length _ fd lp2 hq
  have hev2 : ∀ e ∈ ev2, EventWithinDepth cfg.maxOrdersPerSide e := by
    rcases runBlock2_spec cfg fd lp t s1 p s2 lp2 ev2 h2 with ⟨_, _, rfl⟩ | ⟨hge, hlt, hcase⟩
    · intro e he; simp at he
    · rcases hcase with ⟨hneg, _, _, rfl⟩ | ⟨hpos, _, _, rfl⟩ | ⟨_, rfl, _⟩ <;>
        intro e he <;> simp at he <;> subst he
      · exact eventWithinDepth_mk _ _ _ _ _ (by omega) (by omega)
          (fun h0 => absurd h0 (by omega))
      · exact eventWithinDepth_mk _ _ _ _ _ (by omega) (by omega)
          (fun h0 => absurd h0 (by omega))
      · exact eventWithinDepth_mk _ _ _ _ _ (by omega) (by omega)
          (fun h0 => ⟨rfl, Or.inl rfl⟩)
  have hlp3 : lp'.longPositions.length ≤ cfg.maxOrdersPerSide ∧
      lp'.shortPositions.length ≤ cfg.maxOrdersPerSide := by
    rcases runBlock3_spec cfg fd lp2 t s2 p s' lp' ev3 h3 with ⟨_, rfl, _⟩ | ⟨_, _, _, q, hq⟩
    · exact hlp2
    · exact calculatePositionsBothSides_length _ fd lp' hq
  have hev3 : ∀ e ∈ ev3, EventWithinDepth cfg.maxOrdersPerSide e := by
    rcases runBlock3_spec cfg fd lp2 t s2 p s' lp' ev3 h3 with ⟨_, _, rfl⟩ | ⟨hmax, _, hcase, _⟩
    · intro e he; simp at he
    · rcases hcase with rfl | rfl <;> intro e he <;> simp at he <;> subst he
      · exact eventWithinDepth_mk _ _ _ _ _ (by omega) (by omega)
          (fun h0 => ⟨rfl, Or.inl rfl⟩)
      · exact eventWithinDepth_mk _ _ _ _ _ (by omega) (by omega)
          (fun h0 => ⟨rfl, Or.inr rfl⟩)
  refine ⟨hlp3.1, hlp3.2, ?_⟩
  intro e he
  rcases List.mem_append.mp he with he' | he'
  · rcases List.mem_append.mp he' with he'' | he''
    · exact hev1 e he''
    · exact hev2 e he''
  · exact hev3 e he'

theorem jsLe_some_some (a b : ℚ) : jsLe (some a) (some b) = decide (a ≤ b) := rfl

theorem jsGe_some_some (a b : ℚ) : jsGe (some a) (some b) = decide (b ≤ a) := rfl

/-- The long take-profit branch is a no-op on an unparsable sample. -/
theorem longTPBranch_none (cfg : BacktestConfig) (fd : List SymbolRiskBracketInfo)
    (lp : LadderState) (t s : ℤ) (r : ℤ × LadderState × List BacktestEvent)
    (h : longTPBranch cfg fd lp t s none = Except.ok r) : r = (s, lp, []) := by
  unfold longTPBranch at h
  split at h
  · simp at h
  · simp only [jsGe_none_left, Bool.false_eq_true, if_false] at h
    exact (Except.ok.inj h).symm

/-- The short take-profit branch is a no-op on an unparsable sample. -/
theorem shortTPBranch_none (cfg : BacktestConfig) (fd : List SymbolRiskBracketInfo)
    (lp : LadderState) (t s : ℤ) (r : ℤ × LadderState × List BacktestEvent)
    (h : shortTPBranch cfg fd lp t s none = Except.ok r) : r = (s, lp, []) := by
  unfold shortTPBranch at h
  split at h
  · simp at h
  · simp only [jsLe_none_left, Bool.false_eq_true, if_false] at h
    exact (Except.ok.inj h).symm

/-- The flat-state block is a no-op on an unparsable sample. -/
theorem runBlock1_none (cfg : BacktestConfig) (lp : LadderState) (t s : ℤ)
    (r : ℤ × List BacktestEvent)
    (h : runBlock1 cfg lp t s none = Except.ok r) : r = (s, []) := by
  unfold runBlock1 at h
  split at h
  · rename_i hs0
    subst hs0
    simp only [jsLe_none_left, jsGe_none_left, Bool.false_eq_true, if_false] at h
    split at h
    · simp at h
    · split at h
      · simp at h
      · exact (Except.ok.inj h).symm
  · exact (Except.ok.inj h).symm

/-- The intermediate-depth block is a no-op on an unparsable sample. -/
theorem runBlock2_none (cfg : BacktestConfig) (fd : List SymbolRiskBracketInfo)
    (lp : LadderState) (t s : ℤ) (r : ℤ × LadderState × List BacktestEvent)
    (h : runBlock2 cfg fd lp t s none = Except.ok r) : r = (s, lp, []) := by
  unfold runBlock2 at h
  split at h
  · split at h
    · split at h
      · simp at h
      · simp only [jsLe_none_left, Bool.false_eq_true, if_false] at h
        exact longTPBranch_none cfg fd lp t s r h
    · split at h
      · simp at h
      · simp only [jsGe_none_left, Bool.false_eq_true, if_false] at h
        exact shortTPBranch_none cfg fd lp t s r h
  · exact (Except.ok.inj h).symm

/-- The max-depth block is a no-op on an unparsable sample. -/
theorem runBlock3_none (cfg : BacktestConfig) (fd : List SymbolRiskBracketInfo)
    (lp : LadderState) (t s : ℤ) (r : ℤ × LadderState × List BacktestEvent)
    (h : runBlock3 cfg fd lp t s none = Except.ok r) : r = (s, lp, []) := by
  unfold runBlock3 at h
  split at h
  · split at h
    · split at h
      · simp only [jsLe_none_left, Bool.false_eq_true, if_false] at h
        exact longTPBranch_none cfg fd lp t s r h
      · exact longTPBranch_none cfg fd lp t s r h
    · split at h
      · simp only [jsGe_none_left, Bool.false_eq_true, if_false] at h
        exact shortTPBranch_none cfg fd lp t s r h
      · exact shortTPBranch_none cfg fd lp t s r h
  · exact (Except.ok.inj h).symm

/-- C2 amended: a sampled price whose field failed to parse fires no
transition at all: whenever the step succeeds, the state, the ladder and the
event log are left unchanged, and the backtest continues with the following
samples and bars. -/
theorem c2_amended_nan_noop (cfg : BacktestConfig) (fd : List SymbolRiskBracketInfo)
    (lp : LadderState) (t s : ℤ) (r : ℤ × LadderState × List BacktestEvent)
    (h : stepPrice cfg fd lp t s none = Except.ok r) : r = (s, lp, []) := by
  obtain ⟨s1, ev1, s2, lp2, ev2, s3, lp3, ev3, h1, h2, h3, rfl⟩ :=
    stepPrice_ok_elim cfg fd lp t s none _ h
  have e1 := runBlock1_none _ _ _ _ _ h1
  simp only [Prod.mk.injEq] at e1
  obtain ⟨rfl, rfl⟩ := e1
  have e2 := runBlock2_none _ _ _ _ _ _ h2
  simp only [Prod.mk.injEq] at e2
  obtain ⟨rfl, rfl, rfl⟩ := e2
  have e3 := runBlock3_none _ _ _ _ _ _ h3
  simp only [Prod.mk.injEq] at e3
  obtain ⟨rfl, rfl, rfl⟩ := e3
  simp

/-- C6 amended: each of the three state blocks appends at most one event for
a sampled price, so a single sampled price appends at most three events (the
counterexample shows two are reachable, so more than one is possible and the
original claim fails). -/
theorem c6_amended_at_most_three (cfg : BacktestConfig)
    (fd : List SymbolRiskBracketInfo) (lp : LadderState) (t s : ℤ)
    (p : Option ℚ) (r : ℤ × LadderState × List BacktestEvent)
    (h : stepPrice cfg fd lp t s p = Except.ok r) : r.2.2.length ≤ 3 := by
  obtain ⟨s1, ev1, s2, lp2, ev2, s3, lp3, ev3, h1, h2, h3, rfl⟩ :=
    stepPrice_ok_elim cfg fd lp t s p _ h
  have l1 : ev1.length ≤ 1 := by
    rcases runBlock1_spec cfg lp t s p s1 ev1 h1 with ⟨_, rfl⟩ | ⟨_, _, _, rfl⟩ | ⟨_, _, _, rfl⟩ <;>
      simp
  have l2 : ev2.length ≤ 1 := by
    rcases runBlock2_spec cfg fd lp t s1 p s2 lp2 ev2 h2 with ⟨_, _, rfl⟩ | ⟨_, _, hc⟩
    · simp
    · rcases hc with ⟨_, _, _, rfl⟩ | ⟨_, _, _, rfl⟩ | ⟨_, rfl, _⟩ <;> simp
  have l3 : ev3.length ≤ 1 := by
    rcases runBlock3_spec cfg fd lp2 t s2 p s3 lp3 ev3 h3 with ⟨_, _, rfl⟩ | ⟨_, _, hc, _⟩
    · simp
    · rcases hc with rfl | rfl <;> simp
  simp only [List.length_append]
  omega

/-- C7: at max depth on the short side, a sampled price at or above the
rounded stop-loss threshold produces exactly one LOSS event, resets the
state to 0, and replaces the ladder with a wholesale rebuild anchored at the
threshold, which is the ladder used for every following sample. -/
theorem c7_short_stoploss (cfg : BacktestConfig) (fd : List SymbolRiskBracketInfo)
    (lp : LadderState) (t s : ℤ) (p slp : ℚ)
    (s' : ℤ) (lp' : LadderState) (evs : List BacktestEvent)
    (hs : 0 < s) (hmax : s.natAbs = cfg.maxOrdersPerSide)
    (hsl : lp.shortStopLossPrice = some slp)
    (hp : roundUp slp cfg.pricePrecision ≤ p)
    (h : stepPrice cfg fd lp t s (some p) = Except.ok (s', lp', evs)) :
    s' = 0 ∧ evs = [⟨t, s, 0, some EndResult.LOSS⟩] ∧
      calculatePositionsBothSides
        (backtestLiquiConfig cfg (roundUp slp cfg.pricePrecision)) fd = Except.ok lp' := by
  have hb1 : runBlock1 cfg lp t s (some p) = Except.ok (s, []) := by
    unfold runBlock1
    rw [if_neg (by omega : ¬ s = 0)]
  have hb2 : runBlock2 cfg fd lp t s (some p) = Except.ok (s, lp, []) := by
    unfold runBlock2
    rw [if_neg (show ¬ (2 ≤ s.natAbs ∧ s.natAbs < cfg.maxOrdersPerSide) by omega)]
  obtain ⟨s1, ev1, s2, lp2, ev2, s3, lp3, ev3, h1, h2, h3, hr⟩ :=
    stepPrice_ok_elim cfg fd lp t s (some p) _ h
  have e1 := (hb1.symm.trans h1)
  simp only [Except.ok.injEq, Prod.mk.injEq] at e1
  obtain ⟨rfl, rfl⟩ := e1
  have e2 := (hb2.symm.trans h2)
  simp only [Except.ok.injEq, Prod.mk.injEq] at e2
  obtain ⟨rfl, rfl, rfl⟩ := e2
  unfold runBlock3 at h3
  rw [if_pos hmax, if_neg (by omega : ¬ s < 0)] at h3
  simp only [hsl, jsGe_some_some, decide_eq_true_eq, if_pos hp] at h3
  split at h3
  · simp at h3
  · rename_i lpNew hnew
    have e3 := Except.ok.inj h3
    simp only [Prod.mk.injEq] at e3
    obtain ⟨rfl, rfl, rfl⟩ := e3
    have hrr := hr
    simp only [Prod.mk.injEq] at hrr
    obtain ⟨rfl, rfl, rfl⟩ := hrr
    exact ⟨rfl, rfl, hnew⟩

/-- Folding the sample step over a price list preserves the ladder depth cap
and emits only events satisfying the depth property. -/
theorem stepPrices_events (cfg : BacktestConfig) (fd : List SymbolRiskBracketInfo)
    (t : ℤ) : ∀ (ps : List (Option ℚ)) (s : ℤ) (lp : LadderState)
    (s' : ℤ) (lp' : LadderState) (evs : List BacktestEvent),
    lp.longPositions.length ≤ cfg.maxOrdersPerSide →
    lp.shortPositions.length ≤ cfg.maxOrdersPerSide →
    stepPrices cfg fd t ps s lp = Except.ok (s', lp', evs) →
    lp'.longPositions.length ≤ cfg.maxOrdersPerSide ∧
      lp'.shortPositions.length ≤ cfg.maxOrdersPerSide ∧
      ∀ e ∈ evs, EventWithinDepth cfg.maxOrdersPerSide e := by
  intro ps
  induction ps with
  | nil =>
    intro s lp s' lp' evs hL hS h
    simp only [stepPrices] at h
    have hinj := Except.ok.inj h
    simp only [Prod.mk.injEq] at hinj
    obtain ⟨rfl, rfl, rfl⟩ := hinj
    exact ⟨hL, hS, by intro e he; simp at he⟩
  | cons q ps ih =>
    intro s lp s' lp' evs hL hS h
    simp only [stepPrices] at h
    split at h
    · simp at h
    · rename_i s1 lp1 ev1 h1
      split at h
      · simp at h
      · rename_i s2 lp2 ev2 h2
        have hinj := Except.ok.inj h
        simp only [Prod.mk.injEq] at hinj
        obtain ⟨rfl, rfl, rfl⟩ := hinj
        obtain ⟨hL1, hS1, hev1⟩ := stepPrice_events cfg fd lp t s q s1 lp1 ev1 hL hS h1
        obtain ⟨hL2, hS2, hev2⟩ := ih _ _ _ _ _ hL1 hS1 h2
        refine ⟨hL2, hS2, ?_⟩
        intro e he
        rcases List.mem_append.mp he with he' | he'
        · exact hev1 e he'
        · exact hev2 e he'

/-- Folding candle processing over the kline stream preserves the ladder
depth cap and emits only events satisfying the depth property. -/
theorem stepKlines_events (cfg : BacktestConfig) (fd : List SymbolRiskBracketInfo) :
    ∀ (ks : List Kline) (s : ℤ) (lp : LadderState)
    (s' : ℤ) (lp' : LadderState) (evs : List BacktestEvent),
    lp.longPositions.length ≤ cfg.maxOrdersPerSide →
    lp.shortPositions.length ≤ cfg.maxOrdersPerSide →
    stepKlines cfg fd ks s lp = Except.ok (s', lp', evs) →
    lp'.longPositions.length ≤ cfg.maxOrdersPerSide ∧
      lp'.shortPositions.length ≤ cfg.maxOrdersPerSide ∧
      ∀ e ∈ evs, EventWithinDepth cfg.maxOrdersPerSide e := by
  intro ks
  induction ks with
  | nil =>
    intro s lp s' lp' evs hL hS h
    simp only [stepKlines] at h
    have hinj := Except.ok.inj h
    simp only [Prod.mk.injEq] at hinj
    obtain ⟨rfl, rfl, rfl⟩ := hinj
    exact ⟨hL, hS, by intro e he; simp at he⟩
  | cons k ks ih =>
    intro s lp s' lp' evs hL hS h
    simp only [stepKlines] at h
    split at h
    · simp at h
    · rename_i s1 lp1 ev1 h1
      split at h
      · simp at h
      · rename_i s2 lp2 ev2 h2
        have hinj := Except.ok.inj h
        simp only [Prod.mk.injEq] at hinj
        obtain ⟨rfl, rfl, rfl⟩ := hinj
        obtain ⟨hL1, hS1, hev1⟩ :=
          stepPrices_events cfg fd k.time (priceMovement k) s lp s1 lp1 ev1 hL hS h1
        obtain ⟨hL2, hS2, hev2⟩ := ih _ _ _ _ _ hL1 hS1 h2
        refine ⟨hL2, hS2, ?_⟩
        intro e he
        rcases List.mem_append.mp he with he' | he'
        · exact hev1 e he'
        · exact hev2 e he'

/-- C5: every event of a successful backtest run has both endpoint states of
magnitude at most `maxOrdersPerSide`, and every event leaving a state of
magnitude exactly `maxOrdersPerSide` resets the state to 0 and is tagged
PROFIT or LOSS.  Since the state only changes through recorded transitions,
the state magnitude never exceeds `maxOrdersPerSide` during processing, and
from a max-depth state only take-profit or stop-loss resolutions occur. -/
theorem c5_state_bounded (cfg : BacktestConfig) (fd : List SymbolRiskBracketInfo)
    (evs : List BacktestEvent) (hok : backtest cfg fd = Except.ok evs) :
    ∀ e ∈ evs, EventWithinDepth cfg.maxOrdersPerSide e := by
  unfold backtest at hok
  split at hok
  · obtain rfl := Except.ok.inj hok
    intro e he; simp at he
  · split at hok
    · obtain rfl := Except.ok.inj hok
      intro e he; simp at he
    · split at hok
      · obtain rfl := Except.ok.inj hok
        intro e he; simp at he
      · split at hok
        · simp at hok
        · rename_i lp0 hlp0
          split at hok
          · simp at hok
          · rename_i sK lpK evsK hK
            obtain rfl := Except.ok.inj hok
            obtain ⟨hLen1, hLen2⟩ := calculatePositionsBothSides_length _ fd lp0 hlp0
            exact (stepKlines_events cfg fd cfg.klines 0 lp0 sK lpK evsK hLen1 hLen2 hK).2.2

/-- C3 amended: whenever both one-sided simulations succeed, the dual-side
builder succeeds as well — it never fails for lack of rungs — and each
returned side is the simulated sequence truncated to `maxOrdersPerSide`, so
its length is the minimum of `maxOrdersPerSide` and the simulated rung
count (possibly shorter than `maxOrdersPerSide`). -/
theorem c3_amended_truncation (cfg : BothSidesConfig)
    (fd : List SymbolRiskBracketInfo) (a b : List PositionSnapshot)
    (hA : calculateLiquidationPrices (toLiquiConfig cfg TradingMode.LONG) fd = Except.ok a)
    (hB : calculateLiquidationPrices (toLiquiConfig cfg TradingMode.SHORT) fd = Except.ok b) :
    ∃ lp, calculatePositionsBothSides cfg fd = Except.ok lp ∧
      lp.longPositions.length = min cfg.maxOrdersPerSide a.length ∧
      lp.shortPositions.length = min cfg.maxOrdersPerSide b.length := by
  unfold calculatePositionsBothSides
  rw [hA, hB]
  exact ⟨_, rfl, by simp [List.length_map, List.enum_length, List.length_take],
    by simp [List.length_map, List.enum_length, List.length_take]⟩

/-- C4 amended: the simulator has no pre-flight validation and no
InvalidConfig failure: with a zero initial entry price it simply returns an
empty rung list, because the non-positive-price guard fires at rung 0 before
anything is appended (and with zero leverage it runs the loop and returns
rungs, as the counterexample shows). -/
theorem c4_amended_no_validation (cfg : LiquidationPriceConfig)
    (fd : List SymbolRiskBracketInfo) (l : List PositionSnapshot)
    (hE : cfg.initialEntryPrice = 0)
    (hok : calculateLiquidationPrices cfg fd = Except.ok l) : l = [] := by
  unfold calculateLiquidationPrices at hok
  split at hok
  · exact absurd hok (by simp)
  · obtain rfl := Except.ok.inj hok
    show calcLoop cfg _ (49 + 1) 0 initialSimVars = []
    simp [calcLoop, simUpdate, hE]

section WitnessEvaluation

attribute [local semireducible] Rat.mul Rat.add Rat.sub Rat.inv

/-- Witness for the amended C1 theorem at the concrete C1 configuration:
rung 2 equals rung 1 minus 5 percent of the initial price 100. -/
theorem c1_witness :
    rungC1b.entryPrice =
      rungC1a.entryPrice - cfgC1.initialEntryPrice * deviationPercentThisRound cfgC1 2 / 100 := by
  have h := c1_amended_price_recurrence cfgC1 sampleFileData listC1 1 rungC1a rungC1b
    (by decide) (by decide) (by decide)
  simpa using h

/-- Witness for the amended C2 theorem: stepping an unparsable sample from
the flat state over the seed ladder leaves everything unchanged. -/
theorem c2_witness : stepNoneC2 = (0, lpBT0, []) :=
  c2_amended_nan_noop cfgBT sampleFileData lpBT0 7 0 stepNoneC2 (by decide)

/-- Witness for the amended C3 theorem at the insufficient-depth
configuration, whose sides self-liquidate after one rung. -/
theorem c3_witness :
    ∃ lp, calculatePositionsBothSides cfgIns sampleFileData = Except.ok lp ∧
      lp.longPositions.length = min cfgIns.maxOrdersPerSide longInsC3.length ∧
      lp.shortPositions.length = min cfgIns.maxOrdersPerSide shortInsC3.length :=
  c3_amended_truncation cfgIns sampleFileData longInsC3 shortInsC3 (by decide) (by decide)

/-- Witness for the amended C4 theorem: the zero-entry-price configuration
yields an empty rung list. -/
theorem c4_witness : lPrice0 = [] :=
  c4_amended_no_validation cfgPrice0 sampleFileData lPrice0 (by decide) (by decide)

/-- Witness for the C5 theorem on the concrete backtest run. -/
theorem c5_witness :
    evsBT.all (fun e => decide (EventWithinDepth cfgBT.maxOrdersPerSide e)) = true := by
  rw [List.all_eq_true]
  intro e he
  rw [decide_eq_true_eq]
  exact c5_state_bounded cfgBT sampleFileData evsBT (by decide) e he

/-- Witness for the amended C6 theorem at the double-transition sample. -/
theorem c6_witness : stepC6.2.2.length ≤ 3 :=
  c6_amended_at_most_three cfgBT sampleFileData lpBT0 9 0 (some 92) stepC6 (by decide)

/-- Witness for the C7 theorem: price 108 from short depth 2 (the maximum)
over the seed ladder at 100 triggers the stop loss at the rounded threshold
108, emits one LOSS event and rebuilds the ladder at 108. -/
theorem c7_witness :
    stepC7.1 = 0 ∧ stepC7.2.2 = [⟨5, 2, 0, some EndResult.LOSS⟩] ∧
      calculatePositionsBothSides
        (backtestLiquiConfig cfgBT (roundUp slpBT cfgBT.pricePrecision)) sampleFileData
        = Except.ok stepC7.2.1 :=
  c7_short_stoploss cfgBT sampleFileData lpBT0 5 2 108 slpBT stepC7.1 stepC7.2.1 stepC7.2.2
    (by decide) (by decide) (by decide) (by decide) (by decide)

/-- Witness for the C9 theorem at rungs 0 and 1 of the C8 configuration. -/
theorem c9_witness :
    rungC8b.entryPrice < rungC8b.avgEntryPrice ∧
      rungC8b.avgEntryPrice < rungC8a.avgEntryPrice := by
  have h := c9_avg_between cfgC8 sampleFileData listC8 0 rungC8a rungC8b
    (by decide) (by decide) (by decide) (by decide)
  simpa [adjStrict] using h

/-- Witness for the C10 theorem on the C8 configuration. -/
theorem c10_witness : listC8.all (fun s => decide (0 < s.entryPrice)) = true := by
  rw [List.all_eq_true]
  intro x hx
  rw [decide_eq_true_eq]
  exact c10_positive_entry cfgC8 sampleFileData listC8 (by decide) (by decide) x hx

end WitnessEvaluation

end Liquicalc
